import Mathlib

/-
Verification development for the persistent RPC gateway client in
src/monitoring/src/gateway.js of the xavier-railway repository.

The JavaScript client is shallowly embedded: pure helpers become Lean
functions, and the stateful `GatewayClient` becomes an explicit record
`ClientState` together with a step function over environment events
(inbound frames, timer expirations, public API invocations).  Timers and
the random correlation ids produced by `randomUUID()` are modelled as
environment-chosen events subject to a validity predicate (a timer only
fires while armed; generated ids are fresh), which matches the runtime
guarantees of `setTimeout`/`clearTimeout` and of UUID generation.
-/

set_option maxHeartbeats 1000000

namespace XavierGateway

/-- Reconnect backoff base delay in milliseconds (RECONNECT_BASE_MS). -/
def RECONNECT_BASE_MS : Nat := 1000

/-- Reconnect backoff cap in milliseconds (RECONNECT_MAX_MS). -/
def RECONNECT_MAX_MS : Nat := 30000

/-- Per-call timeout in milliseconds (CALL_TIMEOUT_MS). -/
def CALL_TIMEOUT_MS : Nat := 15000

/-- Handshake timeout in milliseconds (HANDSHAKE_TIMEOUT_MS). -/
def HANDSHAKE_TIMEOUT_MS : Nat := 10000

/-- JavaScript truthiness of an optional string value: `undefined` (here
`none`) and the empty string are falsy, every other string is truthy. -/
def strTruthy : Option String → Bool
  | none => false
  | some s => !(s.isEmpty)

/-- JavaScript `x || undefined` on an optional string value. -/
def jsOrUndefined (x : Option String) : Option String :=
  if strTruthy x then x else none

/-- JavaScript `x || ""` on an optional string value. -/
def jsOrEmpty (x : Option String) : String :=
  if strTruthy x then x.getD "" else ""

/-- Argument record of `buildDeviceAuthPayload` in gateway.js (the function
takes a single destructured object). -/
structure AuthPayloadArgs where
  deviceId : String
  clientId : String
  clientMode : String
  role : String
  scopes : List String
  signedAtMs : Nat
  token : Option String
  nonce : Option String
deriving DecidableEq, Repr

/-- Embedding of `buildDeviceAuthPayload` (gateway.js lines 29-34):
version is "v2" exactly when the nonce is truthy, fields are joined with
"|", scopes with ",", and in the v2 case the nonce is pushed last. -/
def buildDeviceAuthPayload (a : AuthPayloadArgs) : String :=
  let version := if strTruthy a.nonce then "v2" else "v1"
  let parts := [version, a.deviceId, a.clientId, a.clientMode, a.role,
    String.intercalate "," a.scopes, toString a.signedAtMs, jsOrEmpty a.token]
  let parts2 := if version = "v2" then parts ++ [a.nonce.getD ""] else parts
  String.intercalate "|" parts2

/-- Configuration read from the environment at module load (gateway.js
lines 16-20); a missing environment variable yields the empty string. -/
structure Config where
  token : String
  deviceId : String
  deviceToken : String
  devicePubkey : String
  devicePrivkey : String
deriving DecidableEq, Repr

/-- Embedding of `const useDeviceAuth = GATEWAY_DEVICE_ID &&
GATEWAY_DEVICE_TOKEN && GATEWAY_DEVICE_PRIVKEY` (line 280): all three
strings truthy, i.e. non-empty. -/
def useDeviceAuth (c : Config) : Bool :=
  !(c.deviceId.isEmpty) && !(c.deviceToken.isEmpty) && !(c.devicePrivkey.isEmpty)

/-- The `client` block of the connect request parameters (lines 288-294). -/
structure ClientInfo where
  id : String
  displayName : String
  version : String
  platform : String
  mode : String
deriving DecidableEq, Repr

/-- The `device` block attached in signed-device mode (lines 316-322). -/
structure DeviceBlock where
  id : String
  publicKey : String
  signature : String
  signedAt : Nat
  nonce : Option String
deriving DecidableEq, Repr

/-- The connect request parameter object built by `_sendConnectRequest`
(lines 285-325).  `authToken` models `auth.token`; the optional fields
`device`, `role` and `scopes` are only set in signed-device mode. -/
structure ConnectParams where
  minProtocol : Nat
  maxProtocol : Nat
  client : ClientInfo
  authToken : Option String
  device : Option DeviceBlock
  role : Option String
  scopes : Option (List String)
deriving DecidableEq, Repr

/-- Embedding of the parameter construction inside `_sendConnectRequest`
(gateway.js lines 277-325).  ED25519 signing (`signPayload`) is a
deterministic pure function of the payload string; it is abstracted as
the parameter `signFn`.  `now` is the `Date.now()` reading, `nonce` the
server-provided challenge nonce (possibly absent or empty). -/
def buildConnectParams (cfg : Config) (signFn : String → String) (now : Nat)
    (nonce : Option String) : ConnectParams :=
  let roleV := "operator"
  let scopesV := ["operator.read", "operator.write", "operator.admin"]
  let base : ConnectParams := {
    minProtocol := 3
    maxProtocol := 3
    client := { id := "gateway-client", displayName := "xavier-monitor",
                version := "1.0.0", platform := "node", mode := "backend" }
    authToken := if useDeviceAuth cfg then some cfg.deviceToken
      else jsOrUndefined (some cfg.token)
    device := none
    role := none
    scopes := none }
  if useDeviceAuth cfg then
    let payload := buildDeviceAuthPayload {
      deviceId := cfg.deviceId
      clientId := "gateway-client"
      clientMode := "backend"
      role := roleV
      scopes := scopesV
      signedAtMs := now
      token := some cfg.deviceToken
      nonce := jsOrUndefined nonce }
    let signature := signFn payload
    { base with
      device := some { id := cfg.deviceId, publicKey := cfg.devicePubkey,
                       signature := signature, signedAt := now,
                       nonce := jsOrUndefined nonce }
      role := some roleV
      scopes := some scopesV }
  else base

/-- Kind of a pending correlation-table entry: an ordinary RPC call made
through `call(method, params)` (the timer closure captures the method
name), or the handshake connect request made by `_sendConnectRequest`. -/
inductive EntryKind where
  | rpc (method : String)
  | handshake
deriving DecidableEq, Repr

/-- Whether an entry was registered by `call()`. -/
def EntryKind.isRpc : EntryKind → Bool
  | EntryKind.rpc _ => true
  | EntryKind.handshake => false

/-- Response payload as inspected by the client: `payload?.type` and
`payload.server` are the only fields gateway.js reads; the remaining
structure is opaque and passed through verbatim, so it is elided. -/
structure Payload where
  ptype : Option String
  server : Option String
deriving DecidableEq, Repr

/-- The `error` object of a response frame: `{message, code?, details?}`. -/
structure ErrInfo where
  message : Option String
  code : Option String
  details : Option String
deriving DecidableEq, Repr

/-- Inbound frame after `JSON.parse`, by `type` discriminator.  For event
frames only the event name and `payload?.nonce` are read by the client
(other event payload content is forwarded opaquely).  `malformed` stands
for data that fails to parse or has an unrecognized `type`. -/
inductive Msg where
  | event (name : String) (nonce : Option String)
  | res (id : String) (ok : Bool) (payload : Option Payload) (error : Option ErrInfo)
  | malformed
deriving DecidableEq, Repr

/-- JavaScript `msg.payload?.type`. -/
def payloadTypeOf : Option Payload → Option String
  | none => none
  | some p => p.ptype

/-- JavaScript `msg.payload.server || null` (server metadata is an object,
modelled opaquely as an optional string). -/
def serverOf : Option Payload → Option String
  | none => none
  | some p => p.server

/-- JavaScript `e?.message || dflt` for an optional error object. -/
def jsMsgOr (e : Option ErrInfo) (dflt : String) : String :=
  let m := Option.bind e ErrInfo.message
  if strTruthy m then m.getD "" else dflt

/-- The error a pending continuation is rejected with. -/
inductive RejectErr where
  | timeout (method : String) (timeoutMs : Nat)
  | connClosed
  | handshakeFailed (error : Option ErrInfo)
  | rpcError (error : Option ErrInfo)
deriving DecidableEq, Repr

/-- The message string of each rejection error, exactly as constructed in
gateway.js (lines 100, 203, 217, 243). -/
def errMessage : RejectErr → String
  | RejectErr.timeout m t => "Gateway RPC timeout: " ++ m ++ " (" ++ toString t ++ "ms)"
  | RejectErr.connClosed => "Gateway connection closed"
  | RejectErr.handshakeFailed e => jsMsgOr e "Handshake failed"
  | RejectErr.rpcError e => jsMsgOr e "RPC error"

/-- Invocation of a stored continuation pair: the entry's `resolve` is
called with a response payload, or its `reject` with an error. -/
inductive Completion where
  | resolved (id : String) (payload : Option Payload)
  | rejected (id : String) (err : RejectErr)
deriving DecidableEq, Repr

/-- Outbound frame written to the socket.  Ordinary request params are
opaque to the client and elided; the connect request carries the
parameters built by `buildConnectParams`. -/
inductive Frame where
  | req (id : String) (method : String)
  | connectReq (id : String) (params : ConnectParams)
deriving DecidableEq, Repr

/-- Observable action performed by a handler: continuation invocations,
correlation-table registrations, socket operations, sends, timer
scheduling, and emitted client events. -/
inductive Output where
  | comp (kind : EntryKind) (c : Completion)
  | registered (kind : EntryKind) (id : String)
  | sockClose (sock : Nat)
  | sockOpenReq (sock : Nat)
  | sent (f : Frame)
  | reconnectScheduled (delay : Nat)
  | emitConnected
  | emitDisconnected
  | emitEvent (name : String)
  | callRefused (method : String)
deriving DecidableEq, Repr

/-- The mutable fields of `GatewayClient`.  Sockets are identified by a
generation number drawn from `nextSock` (the `WebSocket` object created
by each `_doConnect`); `reconnectTimer` holds the delay of the armed
timer when one is pending; `hsTimerArmed` models the handshake timer of
the current connection attempt. -/
structure ClientState where
  ws : Option Nat
  nextSock : Nat
  connected : Bool
  handshakeComplete : Bool
  pending : List (String × EntryKind)
  reconnectDelay : Nat
  reconnectTimer : Option Nat
  connectedAt : Option Nat
  serverInfo : Option String
  hsTimerArmed : Bool
deriving DecidableEq, Repr

/-- Constructor state of `GatewayClient` (lines 52-62). -/
def initState : ClientState :=
  { ws := none, nextSock := 0, connected := false, handshakeComplete := false,
    pending := [], reconnectDelay := RECONNECT_BASE_MS, reconnectTimer := none,
    connectedAt := none, serverInfo := none, hsTimerArmed := false }

/-- `Map.has` on the correlation table (keys kept in insertion order). -/
def mapHas (m : List (String × EntryKind)) (k : String) : Bool :=
  m.any (fun e => decide (e.1 = k))

/-- `Map.get` on the correlation table. -/
def mapGet (m : List (String × EntryKind)) (k : String) : Option EntryKind :=
  match m.find? (fun e => decide (e.1 = k)) with
  | some e => some e.2
  | none => none

/-- `Map.set` on the correlation table: an existing binding is replaced in
place (JavaScript `Map.set` keeps insertion order), otherwise the new
binding is appended. -/
def mapSet (m : List (String × EntryKind)) (k : String) (v : EntryKind) :
    List (String × EntryKind) :=
  if mapHas m k then m.map (fun e => if e.1 = k then (k, v) else e)
  else m ++ [(k, v)]

/-- `Map.delete` on the correlation table. -/
def mapDelete (m : List (String × EntryKind)) (k : String) :
    List (String × EntryKind) :=
  m.filter (fun e => !(decide (e.1 = k)))

/-- Whether `_send` actually writes: `this._ws?.readyState ===
WebSocket.OPEN` (line 336).  The `connected` flag is set by `onopen` and
cleared by `onclose`/`disconnect`, so it tracks readiness of the current
socket. -/
def sockIsOpen (s : ClientState) : Bool :=
  s.ws.isSome && s.connected

/-- Embedding of `_send` (lines 335-339): the frame is written only when
the socket is open, otherwise silently dropped. -/
def sendOut (s : ClientState) (f : Frame) : List Output :=
  if sockIsOpen s then [Output.sent f] else []

/-- Embedding of `_scheduleReconnect` (lines 341-352): a no-op while a
reconnect timer is pending; otherwise schedules at the current delay and
doubles the delay, capping at RECONNECT_MAX_MS. -/
def scheduleReconnect (s : ClientState) : ClientState × List Output :=
  if s.reconnectTimer.isSome then (s, [])
  else
    ({ s with reconnectDelay := min (s.reconnectDelay * 2) RECONNECT_MAX_MS,
              reconnectTimer := some s.reconnectDelay },
     [Output.reconnectScheduled s.reconnectDelay])

/-- Embedding of `_doConnect` (lines 129-152): closes any existing socket,
creates a fresh one and arms the handshake timer.  The `WebSocket`
constructor failure path (lines 140-144) is an environment failure not
modelled here; handler registration itself has no observable effect. -/
def doConnect (s : ClientState) : ClientState × List Output :=
  let closeOld : List Output :=
    match s.ws with
    | some k => [Output.sockClose k]
    | none => []
  ({ s with ws := some s.nextSock, nextSock := s.nextSock + 1, hsTimerArmed := true },
   closeOld ++ [Output.sockOpenReq s.nextSock])

/-- Embedding of the `onopen` handler (lines 154-158): marks the socket
connected and resets the backoff delay to its base value. -/
def onOpen (s : ClientState) : ClientState :=
  { s with connected := true, reconnectDelay := RECONNECT_BASE_MS }

/-- Embedding of the `onclose` handler (lines 232-253): clears the
handshake timer, resets the connection flags and metadata, rejects every
pending entry with the connection-closed error, clears the table, emits
"disconnected" if the handshake had completed, and schedules a
reconnect. -/
def onClose (s : ClientState) : ClientState × List Output :=
  let wasConnected := s.handshakeComplete
  let rejects : List Output :=
    s.pending.map (fun e => Output.comp e.2 (Completion.rejected e.1 RejectErr.connClosed))
  let s1 := { s with hsTimerArmed := false, connected := false,
                     handshakeComplete := false, connectedAt := none,
                     serverInfo := none, pending := [] }
  let discOut : List Output := if wasConnected then [Output.emitDisconnected] else []
  let sr := scheduleReconnect s1
  (sr.1, rejects ++ discOut ++ sr.2)

/-- Embedding of `disconnect()` (lines 114-125): cancels a pending
reconnect timer, closes the socket if present, nulls the handle and
clears the connection flags.  Note that closing the socket makes the
runtime deliver a later close event to the handlers still attached to
that socket object. -/
def disconnectOp (s : ClientState) : ClientState × List Output :=
  let closeOut : List Output :=
    match s.ws with
    | some k => [Output.sockClose k]
    | none => []
  ({ s with reconnectTimer := none, ws := none, connected := false,
            handshakeComplete := false },
   closeOut)

/-- Embedding of `_sendConnectRequest` (lines 261-333): registers a
handshake entry under the fresh id `fid` (its stored `resolve` is a no-op
and its `reject` only logs; invocation counts are nevertheless the
observable events), builds the connect parameters and sends the request.
The entry's HANDSHAKE_TIMEOUT_MS timer is modelled by timer-fire
events dispatched on the stored entry kind. -/
def sendConnectRequest (cfg : Config) (signFn : String → String) (s : ClientState)
    (fid : String) (nonce : Option String) (now : Nat) : ClientState × List Output :=
  let s1 := { s with pending := mapSet s.pending fid EntryKind.handshake }
  let params := buildConnectParams cfg signFn now nonce
  (s1, Output.registered EntryKind.handshake fid :: sendOut s1 (Frame.connectReq fid params))

/-- Embedding of the `onmessage` handler (lines 160-230).  `fid` is the
fresh id `randomUUID()` would produce if this message is a challenge;
`now` is the `Date.now()` reading. -/
def onMessage (cfg : Config) (signFn : String → String) (s : ClientState)
    (m : Msg) (fid : String) (now : Nat) : ClientState × List Output :=
  match m with
  | Msg.malformed => (s, [])
  | Msg.event name nonce =>
      if name = "connect.challenge" then
        sendConnectRequest cfg signFn s fid nonce now
      else
        (s, [Output.emitEvent name])
  | Msg.res rid ok payload error =>
      if s.handshakeComplete = false ∧ payloadTypeOf payload = some "hello-ok" then
        let s1 := { s with hsTimerArmed := false, handshakeComplete := true,
                           connectedAt := some now, serverInfo := serverOf payload }
        match mapGet s1.pending rid with
        | some e =>
            ({ s1 with pending := mapDelete s1.pending rid },
             [Output.emitConnected, Output.comp e (Completion.resolved rid payload)])
        | none => (s1, [Output.emitConnected])
      else if s.handshakeComplete = false ∧ ok = false then
        let s1 := { s with hsTimerArmed := false }
        let rc : ClientState × List Output :=
          match mapGet s1.pending rid with
          | some e =>
              ({ s1 with pending := mapDelete s1.pending rid },
               [Output.comp e (Completion.rejected rid (RejectErr.handshakeFailed error))])
          | none => (s1, [])
        let closeOut : List Output :=
          match rc.1.ws with
          | some k => [Output.sockClose k]
          | none => []
        (rc.1, rc.2 ++ closeOut)
      else
        match mapGet s.pending rid with
        | some e =>
            let s1 := { s with pending := mapDelete s.pending rid }
            if ok then
              (s1, [Output.comp e (Completion.resolved rid payload)])
            else
              (s1, [Output.comp e (Completion.rejected rid (RejectErr.rpcError error))])
        | none => (s, [])

/-- Whether `isConnected()` (lines 70-72) returns true. -/
def isConnected (s : ClientState) : Bool :=
  s.connected && s.handshakeComplete

/-- Embedding of `call(method, params)` (lines 90-112) with the fresh
`randomUUID()` id supplied as `id`: when not ready the returned promise
rejects immediately with the not-ready error (no registration, no send);
otherwise the id is registered with its timeout timer and the request
frame is sent. -/
def callOp (s : ClientState) (id : String) (method : String) : ClientState × List Output :=
  if isConnected s then
    let s1 := { s with pending := mapSet s.pending id (EntryKind.rpc method) }
    (s1, Output.registered (EntryKind.rpc method) id :: sendOut s1 (Frame.req id method))
  else
    (s, [Output.callRefused method])

/-- Firing of a pending entry's timeout timer.  The closure created by
`call()` (lines 98-101) deletes the id and rejects with the timeout
error; the closure created by `_sendConnectRequest` (lines 265-269)
deletes the id and closes the socket without invoking the continuation.
Dispatch on the stored kind is faithful because a cleared timer never
fires (trace validity) and ids are unique. -/
def timerFireOp (s : ClientState) (id : String) : ClientState × List Output :=
  match mapGet s.pending id with
  | some (EntryKind.rpc method) =>
      ({ s with pending := mapDelete s.pending id },
       [Output.comp (EntryKind.rpc method)
          (Completion.rejected id (RejectErr.timeout method CALL_TIMEOUT_MS))])
  | some EntryKind.handshake =>
      let s1 := { s with pending := mapDelete s.pending id }
      let closeOut : List Output :=
        match s1.ws with
        | some k => [Output.sockClose k]
        | none => []
      (s1, closeOut)
  | none => (s, [])

/-- Firing of the handshake timer armed in `_doConnect` (lines 147-152):
if the handshake has not completed, the socket is closed. -/
def hsTimerFireOp (s : ClientState) : ClientState × List Output :=
  let s1 := { s with hsTimerArmed := false }
  if s1.handshakeComplete then (s1, [])
  else
    match s1.ws with
    | some k => (s1, [Output.sockClose k])
    | none => (s1, [])

/-- Firing of the reconnect timer (lines 348-351): clears the timer handle
and runs `_doConnect`. -/
def reconnectFireOp (s : ClientState) : ClientState × List Output :=
  doConnect { s with reconnectTimer := none }

/-- Environment events driving the client: public API invocations, socket
callbacks, inbound frames and timer expirations. -/
inductive Ev where
  | connect
  | disconnect
  | call (id : String) (method : String)
  | msg (m : Msg) (fid : String) (now : Nat)
  | sockOpen
  | sockClosed
  | timerFire (id : String)
  | hsTimerFire
  | reconnectFire
deriving DecidableEq, Repr

/-- One step of the client: dispatches an environment event to the
corresponding handler. -/
def step (cfg : Config) (signFn : String → String) (s : ClientState) :
    Ev → ClientState × List Output
  | Ev.connect => doConnect s
  | Ev.disconnect => disconnectOp s
  | Ev.call id method => callOp s id method
  | Ev.msg m fid now => onMessage cfg signFn s m fid now
  | Ev.sockOpen => (onOpen s, [])
  | Ev.sockClosed => onClose s
  | Ev.timerFire id => timerFireOp s id
  | Ev.hsTimerFire => hsTimerFireOp s
  | Ev.reconnectFire => reconnectFireOp s

/-- Run a sequence of events, collecting all outputs in order. -/
def run (cfg : Config) (signFn : String → String) :
    ClientState → List Ev → ClientState × List Output
  | s, [] => (s, [])
  | s, e :: t =>
      let r := step cfg signFn s e
      let r2 := run cfg signFn r.1 t
      (r2.1, r.2 ++ r2.2)

/-- Whether a message is the challenge event (which consumes a fresh id). -/
def isChallenge : Msg → Bool
  | Msg.event name _ => decide (name = "connect.challenge")
  | _ => false

/-- Validity of an event in a state: freshly generated ids are not already
registered (randomUUID uniqueness), and a timer only fires while armed
(setTimeout/clearTimeout semantics). -/
def evValidB (s : ClientState) : Ev → Bool
  | Ev.call id _ => !(mapHas s.pending id)
  | Ev.msg m fid _ => if isChallenge m then !(mapHas s.pending fid) else true
  | Ev.timerFire id => mapHas s.pending id
  | Ev.reconnectFire => s.reconnectTimer.isSome
  | Ev.hsTimerFire => s.hsTimerArmed
  | _ => true

/-- Validity of a whole event sequence from a starting state. -/
def validFrom (cfg : Config) (signFn : String → String) :
    ClientState → List Ev → Bool
  | _, [] => true
  | s, e :: t => evValidB s e && validFrom cfg signFn (step cfg signFn s e).1 t

/-- Number of pending rpc entries for a given id. -/
def pendRpcCount (m : List (String × EntryKind)) (id : String) : Nat :=
  m.countP (fun e => decide (e.1 = id) && e.2.isRpc)

/-- Whether an output is a continuation invocation for an rpc entry with
the given id. -/
def isRpcCompFor (id : String) : Output → Bool
  | Output.comp (EntryKind.rpc _) (Completion.resolved i _) => decide (i = id)
  | Output.comp (EntryKind.rpc _) (Completion.rejected i _) => decide (i = id)
  | _ => false

/-- Number of continuation invocations for rpc entries with the given id. -/
def rpcCompCount (out : List Output) (id : String) : Nat :=
  out.countP (isRpcCompFor id)

/-- Whether an output is a `call()` registration of the given id. -/
def isRpcRegFor (id : String) : Output → Bool
  | Output.registered (EntryKind.rpc _) i => decide (i = id)
  | _ => false

/-- Number of `call()` registrations of the given id. -/
def rpcRegCount (out : List Output) (id : String) : Nat :=
  out.countP (isRpcRegFor id)

/-- The correlation table has pairwise-distinct keys (a JavaScript `Map`
invariant). -/
def keysNodup (m : List (String × EntryKind)) : Prop :=
  (m.map Prod.fst).Nodup

instance keysNodupDec (m : List (String × EntryKind)) : Decidable (keysNodup m) :=
  List.nodupDecidable (m.map Prod.fst)

/-- The reconnect delays collected from an output sequence, in order. -/
def scheduledDelays (out : List Output) : List Nat :=
  out.filterMap (fun o =>
    match o with
    | Output.reconnectScheduled d => some d
    | _ => none)

/-- Whether an output is a continuation invocation. -/
def isComp : Output → Bool
  | Output.comp _ _ => true
  | _ => false

/-- The continuation invocations of an output sequence, in order. -/
def compOutputs (out : List Output) : List Output :=
  out.filter isComp

/-- Whether an output closes a socket. -/
def isSockClose : Output → Bool
  | Output.sockClose _ => true
  | _ => false

lemma mapHas_cons (a : String × EntryKind) (t : List (String × EntryKind)) (k : String) :
    mapHas (a :: t) k = (decide (a.1 = k) || mapHas t k) := by
  simp [mapHas]

lemma mapHas_iff_mem (m : List (String × EntryKind)) (k : String) :
    mapHas m k = true ↔ k ∈ m.map Prod.fst := by
  induction m with
  | nil => simp [mapHas]
  | cons a t ih =>
      rw [mapHas_cons]
      simp only [List.map_cons, List.mem_cons, Bool.or_eq_true, decide_eq_true_eq]
      rw [ih]
      constructor
      · rintro (h | h)
        · exact Or.inl h.symm
        · exact Or.inr h
      · rintro (h | h)
        · exact Or.inl h.symm
        · exact Or.inr h

lemma mapSet_fresh (m : List (String × EntryKind)) (k : String) (v : EntryKind)
    (h : mapHas m k = false) : mapSet m k v = m ++ [(k, v)] := by
  simp [mapSet, h]

lemma mapDelete_of_not_has (m : List (String × EntryKind)) (k : String)
    (h : mapHas m k = false) : mapDelete m k = m := by
  rw [mapDelete, List.filter_eq_self]
  intro e he
  simp only [Bool.not_eq_true', decide_eq_false_iff_not]
  intro hek
  have : mapHas m k = true := by
    rw [mapHas_iff_mem]
    exact List.mem_map.mpr ⟨e, he, hek⟩
  rw [h] at this
  exact Bool.false_ne_true this

lemma keysNodup_append_fresh (m : List (String × EntryKind)) (k : String) (v : EntryKind)
    (hwf : keysNodup m) (h : mapHas m k = false) : keysNodup (m ++ [(k, v)]) := by
  have hk : k ∉ m.map Prod.fst := by
    intro hmem
    have := (mapHas_iff_mem m k).mpr hmem
    rw [h] at this
    exact Bool.false_ne_true this
  have : ((m ++ [(k, v)]).map Prod.fst).Nodup := by
    rw [List.map_append]
    rw [List.nodup_append_comm]
    simp only [List.map_cons, List.map_nil, List.singleton_append, List.nodup_cons]
    exact ⟨hk, hwf⟩
  exact this

lemma keysNodup_delete (m : List (String × EntryKind)) (k : String)
    (hwf : keysNodup m) : keysNodup (mapDelete m k) := by
  have hsub : List.Sublist ((mapDelete m k).map Prod.fst) (m.map Prod.fst) :=
    List.Sublist.map Prod.fst (List.filter_sublist m)
  exact List.Nodup.sublist hsub hwf

lemma mapGet_some_of_has (m : List (String × EntryKind)) (k : String)
    (h : mapHas m k = true) : ∃ e, mapGet m k = some e := by
  rw [mapGet]
  cases hf : m.find? (fun e => decide (e.1 = k)) with
  | none =>
      exfalso
      rw [List.find?_eq_none] at hf
      rcases (mapHas_iff_mem m k).mp h with hmem
      rcases List.mem_map.mp hmem with ⟨e, he, hek⟩
      exact hf e he (by simpa using hek)
  | some a => exact ⟨a.2, rfl⟩

lemma mapHas_of_mapGet_some (m : List (String × EntryKind)) (k : String) (e : EntryKind)
    (h : mapGet m k = some e) : mapHas m k = true := by
  rw [mapGet] at h
  cases hf : m.find? (fun e => decide (e.1 = k)) with
  | none => rw [hf] at h; exact absurd h (by simp)
  | some a =>
      have ha := List.find?_some hf
      have hmem := List.mem_of_find?_eq_some hf
      rw [mapHas_iff_mem]
      exact List.mem_map.mpr ⟨a, hmem, by simpa using ha⟩

lemma pendRpcCount_append (m1 m2 : List (String × EntryKind)) (id : String) :
    pendRpcCount (m1 ++ m2) id = pendRpcCount m1 id + pendRpcCount m2 id := by
  simp [pendRpcCount, List.countP_append]

lemma pendRpcCount_delete (m : List (String × EntryKind)) (k : String) (e : EntryKind)
    (hwf : keysNodup m) (hget : mapGet m k = some e) (id : String) :
    pendRpcCount m id
      = pendRpcCount (mapDelete m k) id
        + (if k = id ∧ e.isRpc = true then 1 else 0) := by
  induction m with
  | nil => simp [mapGet] at hget
  | cons a t ih =>
      rcases List.nodup_cons.mp hwf with ⟨hnotin, hnt⟩
      by_cases hak : a.1 = k
      · have hget2 : e = a.2 := by
          rw [mapGet, List.find?_cons_of_pos _ (by simpa using hak)] at hget
          exact (Option.some.inj hget).symm
        have hhas : mapHas t k = false := by
          cases hh : mapHas t k with
          | false => rfl
          | true =>
              exfalso
              have := (mapHas_iff_mem t k).mp hh
              rw [← hak] at this
              exact hnotin this
        have hdel : mapDelete (a :: t) k = t := by
          rw [mapDelete, List.filter_cons]
          simp only [hak, decide_eq_true_eq, Bool.not_eq_true']
          rw [if_neg (by simp [hak])]
          exact mapDelete_of_not_has t k hhas
        rw [hdel, hget2, pendRpcCount, List.countP_cons, ← pendRpcCount]
        subst hak
        by_cases hid : a.1 = id
        · subst hid
          cases hrpc : a.2.isRpc <;> simp [hrpc]
        · simp [hid]
      · have hget2 : mapGet t k = some e := by
          rw [mapGet, List.find?_cons_of_neg _ (by simpa using hak)] at hget
          exact hget
        have hdel : mapDelete (a :: t) k = a :: mapDelete t k := by
          rw [mapDelete, List.filter_cons]
          simp [hak, mapDelete]
        rw [hdel, pendRpcCount, pendRpcCount, List.countP_cons, List.countP_cons,
          ← pendRpcCount, ← pendRpcCount, ih hnt hget2]
        omega

lemma mapGet_delete_self (m : List (String × EntryKind)) (k : String) :
    mapGet (mapDelete m k) k = none := by
  rw [mapGet]
  cases hf : (mapDelete m k).find? (fun e => decide (e.1 = k)) with
  | none => rfl
  | some a =>
      exfalso
      have ha := List.find?_some hf
      have hmem := List.mem_of_find?_eq_some hf
      rw [mapDelete, List.mem_filter] at hmem
      rcases hmem with ⟨_, hne⟩
      simp only [decide_eq_true_eq] at ha
      simp [ha] at hne

lemma mapGet_delete_other (m : List (String × EntryKind)) (k j : String)
    (h : j ≠ k) : mapGet (mapDelete m k) j = mapGet m j := by
  induction m with
  | nil => rfl
  | cons a t ih =>
      by_cases hak : a.1 = k
      · have hstep : mapDelete (a :: t) k = mapDelete t k := by
          rw [mapDelete, List.filter_cons]
          rw [if_neg (by simp [hak])]
          rfl
        have haj : ¬(a.1 = j) := by
          intro he
          exact h (he ▸ hak)
        rw [hstep, ih, mapGet, mapGet, List.find?_cons_of_neg]
        simpa using haj
      · have hstep : mapDelete (a :: t) k = a :: mapDelete t k := by
          rw [mapDelete, List.filter_cons]
          rw [if_pos (by simp [hak])]
          rfl
        rw [hstep]
        by_cases haj : a.1 = j
        · rw [mapGet, mapGet, List.find?_cons_of_pos _ (by simpa using haj),
            List.find?_cons_of_pos _ (by simpa using haj)]
        · rw [mapGet, mapGet, List.find?_cons_of_neg _ (by simpa using haj),
            List.find?_cons_of_neg _ (by simpa using haj)]
          exact ih

lemma mapGet_append_fresh (m : List (String × EntryKind)) (k : String) (v : EntryKind)
    (h : mapHas m k = false) : mapGet (m ++ [(k, v)]) k = some v := by
  induction m with
  | nil => simp [mapGet]
  | cons a t ih =>
      rw [mapHas_cons] at h
      rcases Bool.or_eq_false_iff.mp h with ⟨hak, hht⟩
      rw [List.cons_append, mapGet, List.find?_cons_of_neg _ (by simpa using hak)]
      exact ih hht

lemma mapGet_replace_self (m : List (String × EntryKind)) (k : String) (v : EntryKind)
    (h : mapHas m k = true) :
    mapGet (m.map (fun e => if e.1 = k then (k, v) else e)) k = some v := by
  induction m with
  | nil => simp [mapHas] at h
  | cons a t ih =>
      rw [List.map_cons]
      by_cases hak : a.1 = k
      · rw [if_pos hak, mapGet, List.find?_cons_of_pos _ (by simp)]
      · rw [if_neg hak]
        have hht : mapHas t k = true := by
          rw [mapHas_cons] at h
          rcases Bool.or_eq_true_iff.mp h with h1 | h1
          · exact absurd (of_decide_eq_true h1) hak
          · exact h1
        rw [mapGet, List.find?_cons_of_neg _ (by simpa using hak)]
        exact ih hht

lemma mapGet_mapSet_self (m : List (String × EntryKind)) (k : String) (v : EntryKind) :
    mapGet (mapSet m k v) k = some v := by
  rw [mapSet]
  cases hh : mapHas m k with
  | false =>
      rw [if_neg (by simp [hh])]
      exact mapGet_append_fresh m k v hh
  | true =>
      rw [if_pos rfl]
      exact mapGet_replace_self m k v hh

lemma mapSet_replace_length (m : List (String × EntryKind)) (k : String) (v : EntryKind)
    (h : mapHas m k = true) : (mapSet m k v).length = m.length := by
  simp [mapSet, h]

lemma rpcCompCount_sendOut (s : ClientState) (f0 : Frame) (id : String) :
    rpcCompCount (sendOut s f0) id = 0 := by
  rw [sendOut]
  split <;> simp [rpcCompCount, isRpcCompFor]

lemma rpcRegCount_sendOut (s : ClientState) (f0 : Frame) (id : String) :
    rpcRegCount (sendOut s f0) id = 0 := by
  rw [sendOut]
  split <;> simp [rpcRegCount, isRpcRegFor]

lemma rpcCompCount_scheduleOut (s : ClientState) (id : String) :
    rpcCompCount (scheduleReconnect s).2 id = 0 := by
  rw [scheduleReconnect]
  split <;> simp [rpcCompCount, isRpcCompFor]

lemma rpcRegCount_scheduleOut (s : ClientState) (id : String) :
    rpcRegCount (scheduleReconnect s).2 id = 0 := by
  rw [scheduleReconnect]
  split <;> simp [rpcRegCount, isRpcRegFor]

lemma scheduleReconnect_pending (s : ClientState) :
    (scheduleReconnect s).1.pending = s.pending := by
  rw [scheduleReconnect]
  split <;> rfl

lemma rpcCompCount_closeRejects (p : List (String × EntryKind)) (id : String) :
    rpcCompCount
      (p.map (fun e => Output.comp e.2 (Completion.rejected e.1 RejectErr.connClosed))) id
      = pendRpcCount p id := by
  simp only [rpcCompCount, pendRpcCount]
  induction p with
  | nil => simp
  | cons a t ih =>
      rw [List.map_cons, List.countP_cons, List.countP_cons, ih]
      cases ha : a.2 <;> simp [isRpcCompFor, EntryKind.isRpc, ha]

lemma rpcRegCount_closeRejects (p : List (String × EntryKind)) (id : String) :
    rpcRegCount
      (p.map (fun e => Output.comp e.2 (Completion.rejected e.1 RejectErr.connClosed))) id
      = 0 := by
  simp only [rpcRegCount]
  induction p with
  | nil => simp
  | cons a t ih =>
      rw [List.map_cons, List.countP_cons, ih]
      simp [isRpcRegFor]

lemma rpcCompCount_append (o1 o2 : List Output) (id : String) :
    rpcCompCount (o1 ++ o2) id = rpcCompCount o1 id + rpcCompCount o2 id := by
  simp [rpcCompCount, List.countP_append]

lemma rpcRegCount_append (o1 o2 : List Output) (id : String) :
    rpcRegCount (o1 ++ o2) id = rpcRegCount o1 id + rpcRegCount o2 id := by
  simp [rpcRegCount, List.countP_append]

/-- One-step table accounting: each step preserves distinctness of the
correlation-table keys, and for every id the pending-entry count plus the
continuation invocations balances the registrations. -/
lemma step_inv (cfg : Config) (f : String → String) (s : ClientState) (ev : Ev)
    (hwf : keysNodup s.pending) (hv : evValidB s ev = true) :
    keysNodup (step cfg f s ev).1.pending ∧
    ∀ id, pendRpcCount (step cfg f s ev).1.pending id
        + rpcCompCount (step cfg f s ev).2 id
        = pendRpcCount s.pending id + rpcRegCount (step cfg f s ev).2 id := by
  cases ev with
  | connect =>
      cases hws : s.ws <;>
        simp [step, doConnect, hws, rpcCompCount, rpcRegCount, isRpcCompFor, isRpcRegFor, hwf]
  | disconnect =>
      cases hws : s.ws <;>
        simp [step, disconnectOp, hws, rpcCompCount, rpcRegCount, isRpcCompFor, isRpcRegFor, hwf]
  | call id method =>
      simp only [step, callOp]
      by_cases hc : isConnected s = true
      · rw [if_pos hc]
        have hfresh : mapHas s.pending id = false := by
          simpa [evValidB] using hv
        simp only [mapSet_fresh _ _ _ hfresh]
        refine ⟨keysNodup_append_fresh _ _ _ hwf hfresh, fun j => ?_⟩
        rw [pendRpcCount_append, rpcCompCount, List.countP_cons, ← rpcCompCount,
          rpcCompCount_sendOut, rpcRegCount, List.countP_cons, ← rpcRegCount,
          rpcRegCount_sendOut]
        by_cases hij : id = j <;>
          simp [isRpcCompFor, isRpcRegFor, pendRpcCount, EntryKind.isRpc, hij]
      · rw [if_neg hc]
        exact ⟨hwf, fun j => by simp [rpcCompCount, rpcRegCount, isRpcCompFor, isRpcRegFor]⟩
  | msg m fid now =>
      cases m with
      | malformed =>
          exact ⟨hwf, fun j => by
            simp [step, onMessage, rpcCompCount, rpcRegCount]⟩
      | event name nonce =>
          simp only [step, onMessage]
          by_cases hn : name = "connect.challenge"
          · rw [if_pos hn]
            have hfresh : mapHas s.pending fid = false := by
              simp only [evValidB] at hv
              rw [if_pos (by simp [isChallenge, hn])] at hv
              simpa using hv
            simp only [sendConnectRequest, mapSet_fresh _ _ _ hfresh]
            refine ⟨keysNodup_append_fresh _ _ _ hwf hfresh, fun j => ?_⟩
            rw [pendRpcCount_append, rpcCompCount, List.countP_cons, ← rpcCompCount,
              rpcCompCount_sendOut, rpcRegCount, List.countP_cons, ← rpcRegCount,
              rpcRegCount_sendOut]
            simp [isRpcCompFor, isRpcRegFor, pendRpcCount, EntryKind.isRpc]
          · rw [if_neg hn]
            exact ⟨hwf, fun j => by simp [rpcCompCount, rpcRegCount, isRpcCompFor, isRpcRegFor]⟩
      | res rid ok payload error =>
          simp only [step, onMessage]
          by_cases h1 : s.handshakeComplete = false ∧ payloadTypeOf payload = some "hello-ok"
          · rw [if_pos h1]
            cases hget : mapGet s.pending rid with
            | some e =>
                simp only [hget]
                refine ⟨keysNodup_delete _ _ hwf, fun j => ?_⟩
                rw [pendRpcCount_delete s.pending rid e hwf hget j]
                cases he : e <;>
                  by_cases hij : rid = j <;>
                    simp [rpcCompCount, rpcRegCount, isRpcCompFor, isRpcRegFor,
                      EntryKind.isRpc, hij, List.countP_cons]
            | none =>
                simp only [hget]
                exact ⟨hwf, fun j => by
                  simp [rpcCompCount, rpcRegCount, isRpcCompFor, isRpcRegFor]⟩
          · rw [if_neg h1]
            by_cases h2 : s.handshakeComplete = false ∧ ok = false
            · rw [if_pos h2]
              cases hget : mapGet s.pending rid with
              | some e =>
                  simp only [hget]
                  constructor
                  · cases hws : s.ws <;> simp [hws, keysNodup_delete _ _ hwf]
                  · intro j
                    rw [pendRpcCount_delete s.pending rid e hwf hget j]
                    cases hws : s.ws <;> cases he : e <;>
                      by_cases hij : rid = j <;>
                        simp [hws, rpcCompCount, rpcRegCount, isRpcCompFor, isRpcRegFor,
                          EntryKind.isRpc, hij, List.countP_cons, List.countP_append]
              | none =>
                  simp only [hget]
                  constructor
                  · cases hws : s.ws <;> simp [hws, hwf]
                  · intro j
                    cases hws : s.ws <;>
                      simp [hws, rpcCompCount, rpcRegCount, isRpcCompFor, isRpcRegFor]
            · rw [if_neg h2]
              cases hget : mapGet s.pending rid with
              | some e =>
                  simp only [hget]
                  by_cases hok : ok = true
                  · rw [if_pos hok]
                    refine ⟨keysNodup_delete _ _ hwf, fun j => ?_⟩
                    rw [pendRpcCount_delete s.pending rid e hwf hget j]
                    cases he : e <;>
                      by_cases hij : rid = j <;>
                        simp [rpcCompCount, rpcRegCount, isRpcCompFor, isRpcRegFor,
                          EntryKind.isRpc, hij, List.countP_cons]
                  · rw [if_neg hok]
                    refine ⟨keysNodup_delete _ _ hwf, fun j => ?_⟩
                    rw [pendRpcCount_delete s.pending rid e hwf hget j]
                    cases he : e <;>
                      by_cases hij : rid = j <;>
                        simp [rpcCompCount, rpcRegCount, isRpcCompFor, isRpcRegFor,
                          EntryKind.isRpc, hij, List.countP_cons]
              | none =>
                  simp only [hget]
                  exact ⟨hwf, fun j => by simp [rpcCompCount, rpcRegCount]⟩
  | sockOpen =>
      exact ⟨hwf, fun j => by simp [step, onOpen, rpcCompCount, rpcRegCount]⟩
  | sockClosed =>
      simp only [step, onClose]
      constructor
      · rw [scheduleReconnect_pending]
        simp [keysNodup]
      · intro j
        rw [rpcCompCount_append, rpcCompCount_append, rpcRegCount_append, rpcRegCount_append,
          rpcCompCount_closeRejects, rpcRegCount_closeRejects, rpcCompCount_scheduleOut,
          rpcRegCount_scheduleOut, scheduleReconnect_pending]
        split <;>
          simp [rpcCompCount, rpcRegCount, isRpcCompFor, isRpcRegFor, pendRpcCount]
  | timerFire id =>
      have hhas : mapHas s.pending id = true := by simpa [evValidB] using hv
      rcases mapGet_some_of_has s.pending id hhas with ⟨e, hget⟩
      simp only [step, timerFireOp, hget]
      cases he : e with
      | rpc method =>
          refine ⟨keysNodup_delete _ _ hwf, fun j => ?_⟩
          rw [pendRpcCount_delete s.pending id e hwf hget j, he]
          by_cases hij : id = j <;>
            simp [rpcCompCount, rpcRegCount, isRpcCompFor, isRpcRegFor,
              EntryKind.isRpc, hij, List.countP_cons]
      | handshake =>
          constructor
          · cases hws : s.ws <;> simp [hws, keysNodup_delete _ _ hwf]
          · intro j
            rw [pendRpcCount_delete s.pending id e hwf hget j, he]
            cases hws : s.ws <;>
              simp [hws, rpcCompCount, rpcRegCount, isRpcCompFor, isRpcRegFor,
                EntryKind.isRpc]
  | hsTimerFire =>
      simp only [step, hsTimerFireOp]
      split
      · exact ⟨hwf, fun j => by simp [rpcCompCount, rpcRegCount]⟩
      · cases hws : s.ws <;>
          simp [hws, hwf, rpcCompCount, rpcRegCount, isRpcCompFor, isRpcRegFor]
  | reconnectFire =>
      cases hws : s.ws <;>
        simp [step, reconnectFireOp, doConnect, hws, rpcCompCount, rpcRegCount,
          isRpcCompFor, isRpcRegFor, hwf]

/-- A resolved continuation can only be produced by an inbound response
frame whose id equals the continuation's id and whose payload is the one
delivered: the table is read at `msg.id` on every resolution path. -/
lemma step_resolved_from_msg (cfg : Config) (f : String → String) (s : ClientState)
    (ev : Ev) (k : EntryKind) (id : String) (p : Option Payload)
    (hmem : Output.comp k (Completion.resolved id p) ∈ (step cfg f s ev).2) :
    ∃ m fid now ok error, ev = Ev.msg m fid now ∧ m = Msg.res id ok p error := by
  cases ev with
  | connect =>
      exfalso
      cases hws : s.ws <;> simp [step, doConnect, hws] at hmem
  | disconnect =>
      exfalso
      cases hws : s.ws <;> simp [step, disconnectOp, hws] at hmem
  | call cid method =>
      exfalso
      simp only [step, callOp] at hmem
      by_cases hc : isConnected s = true
      · rw [if_pos hc] at hmem
        simp only [List.mem_cons] at hmem
        rcases hmem with h | h
        · exact Output.noConfusion h
        · rw [sendOut] at h
          split at h <;> simp at h
      · rw [if_neg hc] at hmem
        simp at hmem
  | msg m fid now =>
      cases m with
      | malformed => exfalso; simp [step, onMessage] at hmem
      | event name nonce =>
          exfalso
          simp only [step, onMessage] at hmem
          by_cases hn : name = "connect.challenge"
          · rw [if_pos hn] at hmem
            simp only [sendConnectRequest, List.mem_cons] at hmem
            rcases hmem with h | h
            · exact Output.noConfusion h
            · rw [sendOut] at h
              split at h <;> simp at h
          · rw [if_neg hn] at hmem
            simp at hmem
      | res rid ok payload error =>
          simp only [step, onMessage] at hmem
          by_cases h1 : s.handshakeComplete = false ∧ payloadTypeOf payload = some "hello-ok"
          · rw [if_pos h1] at hmem
            cases hget : mapGet s.pending rid with
            | some e =>
                simp only [hget, List.mem_cons, List.not_mem_nil, or_false] at hmem
                rcases hmem with h | h
                · exact absurd h (by simp)
                · rcases Output.comp.inj h with ⟨hk, hc⟩
                  rcases Completion.resolved.inj hc with ⟨hid, hp⟩
                  exact ⟨Msg.res rid ok payload error, fid, now, ok, error, rfl, by
                    rw [hid, hp]⟩
            | none =>
                exfalso
                simp [hget] at hmem
          · rw [if_neg h1] at hmem
            by_cases h2 : s.handshakeComplete = false ∧ ok = false
            · rw [if_pos h2] at hmem
              exfalso
              cases hget : mapGet s.pending rid with
              | some e =>
                  simp only [hget] at hmem
                  cases hws : s.ws <;> simp [hws] at hmem
              | none =>
                  simp only [hget] at hmem
                  cases hws : s.ws <;> simp [hws] at hmem
            · rw [if_neg h2] at hmem
              cases hget : mapGet s.pending rid with
              | some e =>
                  simp only [hget] at hmem
                  by_cases hok : ok = true
                  · rw [if_pos hok] at hmem
                    simp only [List.mem_singleton] at hmem
                    rcases Output.comp.inj hmem with ⟨hk, hc⟩
                    rcases Completion.resolved.inj hc with ⟨hid, hp⟩
                    exact ⟨Msg.res rid ok payload error, fid, now, ok, error, rfl, by
                      rw [hid, hp]⟩
                  · rw [if_neg hok] at hmem
                    exfalso
                    simp at hmem
              | none =>
                  exfalso
                  simp [hget] at hmem
  | sockOpen => exfalso; simp [step] at hmem
  | sockClosed =>
      exfalso
      simp only [step, onClose, List.mem_append] at hmem
      rcases hmem with (h | h) | h
      · rcases List.mem_map.mp h with ⟨e, _, he⟩
        rcases Output.comp.inj he.symm with ⟨_, hc⟩
        exact Completion.noConfusion hc
      · split at h <;> simp at h
      · rw [scheduleReconnect] at h
        split at h <;> simp at h
  | timerFire tid =>
      exfalso
      simp only [step, timerFireOp] at hmem
      cases hget : mapGet s.pending tid with
      | some e =>
          cases e with
          | rpc method =>
              simp only [hget, List.mem_singleton] at hmem
              rcases Output.comp.inj hmem with ⟨_, hc⟩
              exact Completion.noConfusion hc
          | handshake =>
              simp only [hget] at hmem
              cases hws : s.ws <;> simp [hws] at hmem
      | none => simp [hget] at hmem
  | hsTimerFire =>
      exfalso
      simp only [step, hsTimerFireOp] at hmem
      split at hmem
      · simp at hmem
      · cases hws : s.ws <;> simp [hws] at hmem
  | reconnectFire =>
      exfalso
      cases hws : s.ws <;> simp [step, reconnectFireOp, doConnect, hws] at hmem

/-- Trace-level table accounting: over any valid event sequence, for every
id the number of rpc continuation invocations plus the remaining pending
rpc entries equals the initial pending rpc entries plus the `call()`
registrations performed during the trace. -/
lemma run_inv (cfg : Config) (f : String → String) (t : List Ev) :
    ∀ (s : ClientState), keysNodup s.pending → validFrom cfg f s t = true →
    keysNodup (run cfg f s t).1.pending ∧
    ∀ id, pendRpcCount (run cfg f s t).1.pending id + rpcCompCount (run cfg f s t).2 id
        = pendRpcCount s.pending id + rpcRegCount (run cfg f s t).2 id := by
  induction t with
  | nil =>
      intro s hwf _
      exact ⟨hwf, fun id => by simp [run, rpcCompCount, rpcRegCount]⟩
  | cons e t ih =>
      intro s hwf hv
      rw [validFrom, Bool.and_eq_true] at hv
      rcases hv with ⟨hv1, hv2⟩
      rcases step_inv cfg f s e hwf hv1 with ⟨hwf1, heq1⟩
      rcases ih (step cfg f s e).1 hwf1 hv2 with ⟨hwf2, heq2⟩
      refine ⟨by simpa [run] using hwf2, fun id => ?_⟩
      have h1 := heq1 id
      have h2 := heq2 id
      simp only [run, rpcCompCount_append, rpcRegCount_append]
      omega

/-- Concrete token-auth configuration used for concrete executions. -/
def cfgTok : Config :=
  { token := "tok", deviceId := "", deviceToken := "", devicePubkey := "",
    devicePrivkey := "" }

/-- Concrete signing function used for concrete executions. -/
def signId : String → String := fun s => s

/-- A successful connection trace: connect, socket open, challenge,
hello-ok handshake response. -/
def readyTrace : List Ev :=
  [Ev.connect, Ev.sockOpen,
   Ev.msg (Msg.event "connect.challenge" none) "h1" 100,
   Ev.msg (Msg.res "h1" true (some { ptype := some "hello-ok", server := some "srv" })
     none) "x" 101]

/-- C1: for every id registered in the correlation table by `call()`, the
number of continuation invocations for that id plus its remaining pending
entries balances its registrations over every valid trace (so each
registered id is completed at most once, and exactly once when it is
settled), and a continuation is only ever resolved by a response frame
whose id field equals that continuation's id, receiving that very frame's
payload. -/
theorem call_resolution_exactly_once_and_id_correlated :
    (∀ (cfg : Config) (f : String → String) (t : List Ev) (s : ClientState),
        keysNodup s.pending → validFrom cfg f s t = true →
        ∀ id, pendRpcCount (run cfg f s t).1.pending id
            + rpcCompCount (run cfg f s t).2 id
            = pendRpcCount s.pending id + rpcRegCount (run cfg f s t).2 id) ∧
    (∀ (cfg : Config) (f : String → String) (s : ClientState) (ev : Ev)
        (k : EntryKind) (id : String) (p : Option Payload),
        Output.comp k (Completion.resolved id p) ∈ (step cfg f s ev).2 →
        ∃ m fid now ok error, ev = Ev.msg m fid now ∧ m = Msg.res id ok p error) :=
  ⟨fun cfg f t s hwf hv => (run_inv cfg f t s hwf hv).2, step_resolved_from_msg⟩

/-- A trace registering one `call()` id and resolving it. -/
def oneCallTrace : List Ev :=
  readyTrace ++ [Ev.call "c1" "m1",
    Ev.msg (Msg.res "c1" true (some { ptype := none, server := none }) none) "y" 102]

/-- Witness for C1 at a concrete trace: one registration, one completion,
nothing left pending. -/
theorem call_resolution_exactly_once_witness :
    keysNodup initState.pending ∧
    validFrom cfgTok signId initState oneCallTrace = true ∧
    pendRpcCount (run cfgTok signId initState oneCallTrace).1.pending "c1"
      + rpcCompCount (run cfgTok signId initState oneCallTrace).2 "c1"
      = pendRpcCount initState.pending "c1"
      + rpcRegCount (run cfgTok signId initState oneCallTrace).2 "c1" :=
  ⟨by decide, by decide,
    call_resolution_exactly_once_and_id_correlated.1 cfgTok signId oneCallTrace initState
      (by decide) (by decide) "c1"⟩

/-- The events up to and including `disconnect()`. -/
def disconnectEvs : List Ev := [Ev.connect, Ev.sockOpen, Ev.disconnect]

/-- The same events followed by the close event that the runtime delivers
for the socket that `disconnect()` closed. -/
def disconnectTrace : List Ev := disconnectEvs ++ [Ev.sockClosed]

/-- C2 failing execution: `disconnect()` cancels the reconnect timer and
closes the socket, but the closed socket's close event still runs the
`onclose` handler, which schedules a reconnect timer with no intervening
`connect()` — contradicting the claim that no reconnect is scheduled
until `connect()` is called again. -/
theorem disconnect_then_close_schedules_reconnect :
    validFrom cfgTok signId initState disconnectTrace = true ∧
    (run cfgTok signId initState disconnectEvs).1.reconnectTimer = none ∧
    (run cfgTok signId initState disconnectEvs).1.ws = none ∧
    (run cfgTok signId initState disconnectTrace).1.reconnectTimer
      = some RECONNECT_BASE_MS ∧
    Output.reconnectScheduled RECONNECT_BASE_MS
      ∈ (run cfgTok signId initState disconnectTrace).2 := by
  decide

/-- Two consecutive failed connection attempts, the socket opening each
time but the handshake never completing. -/
def twoFailTrace : List Ev :=
  [Ev.connect, Ev.sockOpen, Ev.sockClosed, Ev.reconnectFire, Ev.sockOpen, Ev.sockClosed]

/-- C3 counterexample: across two consecutive failures with no READY
transition (the handshake never completes and no "connected" event is
emitted), the second scheduled delay is 1000 ms rather than the 2000 ms
the claim requires, because `onopen` already reset the backoff. -/
theorem backoff_reset_before_ready_cex :
    validFrom cfgTok signId initState twoFailTrace = true ∧
    scheduledDelays (run cfgTok signId initState twoFailTrace).2 = [1000, 1000] ∧
    Output.emitConnected ∉ (run cfgTok signId initState twoFailTrace).2 ∧
    (run cfgTok signId initState twoFailTrace).1.handshakeComplete = false := by
  decide

/-- C3 amended: the scheduled delays over consecutive failures follow
min(1000·2^n, 30000) — i.e. 1000, 2000, 4000, 8000, 16000, 30000,
30000, … — but the delay resets to base when the socket opens
(`onopen`), which can happen before the handshake reaches READY. -/
theorem backoff_doubles_capped_resets_on_open :
    (∀ (s : ClientState) (n : Nat), s.reconnectTimer = none →
        s.reconnectDelay = min (RECONNECT_BASE_MS * 2 ^ n) RECONNECT_MAX_MS →
        (scheduleReconnect s).2
          = [Output.reconnectScheduled (min (RECONNECT_BASE_MS * 2 ^ n) RECONNECT_MAX_MS)] ∧
        (scheduleReconnect s).1.reconnectDelay
          = min (RECONNECT_BASE_MS * 2 ^ (n + 1)) RECONNECT_MAX_MS ∧
        (scheduleReconnect s).1.reconnectTimer
          = some (min (RECONNECT_BASE_MS * 2 ^ n) RECONNECT_MAX_MS)) ∧
    (List.range 6).map (fun n => min (RECONNECT_BASE_MS * 2 ^ n) RECONNECT_MAX_MS)
      = [1000, 2000, 4000, 8000, 16000, 30000] ∧
    (∀ s : ClientState, (onOpen s).reconnectDelay = RECONNECT_BASE_MS) ∧
    initState.reconnectDelay = min (RECONNECT_BASE_MS * 2 ^ 0) RECONNECT_MAX_MS := by
  refine ⟨?_, by decide, fun s => rfl, by decide⟩
  intro s n h1 h2
  have hnone : s.reconnectTimer.isSome = false := by rw [h1]; rfl
  rw [scheduleReconnect, if_neg (by simp [hnone])]
  refine ⟨by rw [h2], ?_, by rw [h2]⟩
  show min (s.reconnectDelay * 2) RECONNECT_MAX_MS
      = min (RECONNECT_BASE_MS * 2 ^ (n + 1)) RECONNECT_MAX_MS
  rw [h2, pow_succ, ← mul_assoc]
  generalize RECONNECT_BASE_MS * 2 ^ n = a
  show min (min a RECONNECT_MAX_MS * 2) RECONNECT_MAX_MS = min (a * 2) RECONNECT_MAX_MS
  rw [RECONNECT_MAX_MS]
  omega

/-- Witness for the amended C3 at the initial state (n = 0). -/
theorem backoff_doubles_capped_resets_on_open_witness :
    initState.reconnectTimer = none ∧
    initState.reconnectDelay = min (RECONNECT_BASE_MS * 2 ^ 0) RECONNECT_MAX_MS ∧
    (scheduleReconnect initState).2
      = [Output.reconnectScheduled (min (RECONNECT_BASE_MS * 2 ^ 0) RECONNECT_MAX_MS)] ∧
    (scheduleReconnect initState).1.reconnectDelay
      = min (RECONNECT_BASE_MS * 2 ^ (0 + 1)) RECONNECT_MAX_MS :=
  ⟨by decide, by decide,
    (backoff_doubles_capped_resets_on_open.1 initState 0 (by decide) (by decide)).1,
    (backoff_doubles_capped_resets_on_open.1 initState 0 (by decide) (by decide)).2.1⟩

/-- C4: the device-auth payload for the specified concrete inputs without
and with a nonce, and in general: tag "v1" with exactly the eight
pipe-joined fields when the nonce is absent, tag "v2" with the nonce
appended as the final field when a (non-empty) nonce is present, scopes
joined by commas in the given order. -/
theorem buildDeviceAuthPayload_format :
    buildDeviceAuthPayload
      { deviceId := "d1", clientId := "gateway-client",
        clientMode := "backend", role := "operator", scopes := ["a", "b"],
        signedAtMs := 1000, token := some "tok", nonce := none }
      = "v1|d1|gateway-client|backend|operator|a,b|1000|tok" ∧
    buildDeviceAuthPayload
      { deviceId := "d1", clientId := "gateway-client",
        clientMode := "backend", role := "operator", scopes := ["a", "b"],
        signedAtMs := 1000, token := some "tok", nonce := some "n1" }
      = "v2|d1|gateway-client|backend|operator|a,b|1000|tok|n1" ∧
    (∀ a : AuthPayloadArgs, a.nonce = none →
        buildDeviceAuthPayload a
          = String.intercalate "|" ["v1", a.deviceId, a.clientId, a.clientMode, a.role,
              String.intercalate "," a.scopes, toString a.signedAtMs, jsOrEmpty a.token]) ∧
    (∀ (a : AuthPayloadArgs) (n : String), a.nonce = some n → n.isEmpty = false →
        buildDeviceAuthPayload a
          = String.intercalate "|" ["v2", a.deviceId, a.clientId, a.clientMode, a.role,
              String.intercalate "," a.scopes, toString a.signedAtMs, jsOrEmpty a.token,
              n]) := by
  refine ⟨by decide, by decide, ?_, ?_⟩
  · intro a h
    simp [buildDeviceAuthPayload, strTruthy, h]
  · intro a n h hempty
    simp [buildDeviceAuthPayload, strTruthy, h, hempty]

/-- Witness for C4's general v2 clause at a concrete nonce. -/
theorem buildDeviceAuthPayload_format_witness :
    buildDeviceAuthPayload
      { deviceId := "d2", clientId := "c", clientMode := "m",
        role := "r", scopes := ["s1", "s2"], signedAtMs := 7, token := some "t",
        nonce := some "n9" }
      = String.intercalate "|" ["v2", "d2", "c", "m", "r",
          String.intercalate "," ["s1", "s2"], toString (7 : Nat),
          jsOrEmpty (some "t"), "n9"] :=
  buildDeviceAuthPayload_format.2.2.2
    { deviceId := "d2", clientId := "c", clientMode := "m", role := "r",
      scopes := ["s1", "s2"], signedAtMs := 7, token := some "t", nonce := some "n9" }
    "n9" rfl (by decide)

/-- The events up to a pending handshake: connect, open, challenge. -/
def challengeEvs : List Ev :=
  [Ev.connect, Ev.sockOpen, Ev.msg (Msg.event "connect.challenge" none) "h1" 100]

/-- The challenge prefix followed by a pre-handshake response with
`ok: true` but a payload type other than "hello-ok". -/
def weirdResTrace : List Ev :=
  challengeEvs
    ++ [Ev.msg (Msg.res "h1" true (some { ptype := some "weird", server := none })
         none) "y" 101]

/-- C5 counterexample: a handshake response with payload type other than
"hello-ok" but `ok: true` does not close the socket — it is handled as a
normal RPC response, the socket stays open and no reconnect timer is
scheduled, contradicting the claim for this frame shape. -/
theorem nonhello_ok_response_does_not_close_cex :
    validFrom cfgTok signId initState weirdResTrace = true ∧
    (run cfgTok signId initState challengeEvs).1.handshakeComplete = false ∧
    (run cfgTok signId initState weirdResTrace).2.countP isSockClose = 0 ∧
    (run cfgTok signId initState weirdResTrace).1.ws = some 0 ∧
    (run cfgTok signId initState weirdResTrace).1.reconnectTimer = none := by
  decide

/-- C5 amended: a pre-handshake response with `ok: false` (and payload
type not "hello-ok", which would instead complete the handshake) closes
the socket; scheduling a reconnect while a timer is pending is a no-op,
and with no timer pending exactly one reconnect is scheduled — so the
close-triggered scheduling happens exactly once.  A pre-handshake
response with `ok: true` and payload type other than "hello-ok" is
handled as a normal RPC response and closes nothing. -/
theorem handshake_error_closes_and_schedules_once :
    (∀ (cfg : Config) (f : String → String) (s : ClientState) (rid : String)
        (pl : Option Payload) (err : Option ErrInfo) (fid : String) (now : Nat) (k : Nat),
        s.handshakeComplete = false → payloadTypeOf pl ≠ some "hello-ok" →
        s.ws = some k →
        Output.sockClose k
          ∈ (onMessage cfg f s (Msg.res rid false pl err) fid now).2) ∧
    (∀ s : ClientState, s.reconnectTimer.isSome = true → scheduleReconnect s = (s, [])) ∧
    (∀ s : ClientState, s.reconnectTimer = none →
        (scheduleReconnect s).2 = [Output.reconnectScheduled s.reconnectDelay] ∧
        (scheduleReconnect s).1.reconnectTimer = some s.reconnectDelay) := by
  refine ⟨?_, ?_, ?_⟩
  · intro cfg f s rid pl err fid now k hhs hpt hws
    simp only [onMessage]
    rw [if_neg (by intro hc; exact hpt hc.2), if_pos (by exact ⟨hhs, by trivial⟩)]
    cases hget : mapGet s.pending rid <;> simp [hget, hws]
  · intro s h
    rw [scheduleReconnect, if_pos h]
  · intro s h
    constructor <;> rw [scheduleReconnect, if_neg (by simp [h])]

/-- Witness for the amended C5 at a concrete pre-handshake state. -/
theorem handshake_error_closes_and_schedules_once_witness :
    (run cfgTok signId initState challengeEvs).1.handshakeComplete = false ∧
    (run cfgTok signId initState challengeEvs).1.ws = some 0 ∧
    Output.sockClose 0
      ∈ (onMessage cfgTok signId (run cfgTok signId initState challengeEvs).1
          (Msg.res "h1" false (some { ptype := some "denied", server := none })
            (some { message := some "bad token", code := none, details := none }))
          "w" 102).2 :=
  ⟨by decide, by decide,
    handshake_error_closes_and_schedules_once.1 cfgTok signId
      (run cfgTok signId initState challengeEvs).1 "h1"
      (some { ptype := some "denied", server := none })
      (some { message := some "bad token", code := none, details := none })
      "w" 102 0 (by decide) (by decide) (by decide)⟩

/-- C6 counterexample: with the client READY on socket 0, a further
`connect()` is not a no-op — it closes the existing socket and opens a
fresh one. -/
theorem connect_not_idempotent_cex :
    validFrom cfgTok signId initState readyTrace = true ∧
    isConnected (run cfgTok signId initState readyTrace).1 = true ∧
    (run cfgTok signId initState readyTrace).1.ws = some 0 ∧
    (step cfgTok signId (run cfgTok signId initState readyTrace).1 Ev.connect).1.ws
      = some 1 ∧
    Output.sockClose 0
      ∈ (step cfgTok signId (run cfgTok signId initState readyTrace).1 Ev.connect).2 := by
  decide

/-- C6 amended: `connect()` unconditionally starts a new connection
attempt via `_doConnect`: whatever the current state, it installs a fresh
socket (closing the previous one when present); it is not guarded by a
connecting/connected check.  The pending table is untouched at this step
(the rejection of pending calls happens at the closed socket's later
close event). -/
theorem connect_always_restarts :
    (∀ (cfg : Config) (f : String → String) (s : ClientState),
        (step cfg f s Ev.connect).1.ws = some s.nextSock ∧
        (step cfg f s Ev.connect).1.nextSock = s.nextSock + 1 ∧
        (step cfg f s Ev.connect).1.pending = s.pending) ∧
    (∀ (cfg : Config) (f : String → String) (s : ClientState) (k : Nat), s.ws = some k →
        (step cfg f s Ev.connect).2
          = [Output.sockClose k, Output.sockOpenReq s.nextSock]) ∧
    (∀ (cfg : Config) (f : String → String) (s : ClientState), s.ws = none →
        (step cfg f s Ev.connect).2 = [Output.sockOpenReq s.nextSock]) := by
  refine ⟨fun cfg f s => ⟨rfl, rfl, rfl⟩, ?_, ?_⟩
  · intro cfg f s k h
    simp [step, doConnect, h]
  · intro cfg f s h
    simp [step, doConnect, h]

/-- Witness for the amended C6: a further `connect()` on the READY state
closes socket 0 and opens socket 1. -/
theorem connect_always_restarts_witness :
    (run cfgTok signId initState readyTrace).1.ws = some 0 ∧
    (step cfgTok signId (run cfgTok signId initState readyTrace).1 Ev.connect).2
      = [Output.sockClose 0,
         Output.sockOpenReq (run cfgTok signId initState readyTrace).1.nextSock] :=
  ⟨by decide,
    connect_always_restarts.2.1 cfgTok signId
      (run cfgTok signId initState readyTrace).1 0 (by decide)⟩

lemma compOutputs_onClose (s : ClientState) :
    compOutputs (onClose s).2
      = s.pending.map
          (fun e => Output.comp e.2 (Completion.rejected e.1 RejectErr.connClosed)) := by
  simp only [onClose, compOutputs, List.filter_append]
  have h1 : (s.pending.map
      (fun e => Output.comp e.2 (Completion.rejected e.1 RejectErr.connClosed))).filter isComp
      = s.pending.map
          (fun e => Output.comp e.2 (Completion.rejected e.1 RejectErr.connClosed)) := by
    rw [List.filter_eq_self]
    intro x hx
    rcases List.mem_map.mp hx with ⟨e, _, he⟩
    rw [← he]
    rfl
  rw [h1]
  have h2 : ∀ s2 : ClientState, (scheduleReconnect s2).2.filter isComp = [] := by
    intro s2
    rw [scheduleReconnect]
    split <;> rfl
  rw [h2]
  cases hcon : s.handshakeComplete <;> simp [isComp]

/-- C7: the close handler rejects exactly the previously pending entries,
each with the single uniform connection-closed error, leaves the table
empty, and is safe (vacuous) when nothing is pending. -/
theorem close_rejects_all_pending_uniformly :
    (∀ s : ClientState,
        (onClose s).1.pending = [] ∧
        compOutputs (onClose s).2
          = s.pending.map
              (fun e => Output.comp e.2 (Completion.rejected e.1 RejectErr.connClosed)) ∧
        (∀ (cfg : Config) (f : String → String), step cfg f s Ev.sockClosed = onClose s)) ∧
    compOutputs (onClose initState).2 = [] ∧
    errMessage RejectErr.connClosed = "Gateway connection closed" := by
  refine ⟨fun s => ⟨?_, compOutputs_onClose s, fun cfg f => rfl⟩, by decide, by decide⟩
  show (scheduleReconnect _).1.pending = []
  rw [scheduleReconnect_pending]

/-- C8: when a `call()` entry's timeout timer fires, that call is rejected
with the timeout error carrying the method name and the configured
timeout, its id is removed from the table, and every other id's entry is
untouched. -/
theorem call_timeout_removes_only_that_id :
    ∀ (s : ClientState) (id method : String),
      mapGet s.pending id = some (EntryKind.rpc method) →
      (timerFireOp s id).1.pending = mapDelete s.pending id ∧
      (timerFireOp s id).2
        = [Output.comp (EntryKind.rpc method)
            (Completion.rejected id (RejectErr.timeout method CALL_TIMEOUT_MS))] ∧
      mapGet (timerFireOp s id).1.pending id = none ∧
      (∀ j, j ≠ id → mapGet (timerFireOp s id).1.pending j = mapGet s.pending j) ∧
      errMessage (RejectErr.timeout "sessions.list" CALL_TIMEOUT_MS)
        = "Gateway RPC timeout: sessions.list (15000ms)" ∧
      (∀ (cfg : Config) (f : String → String),
        step cfg f s (Ev.timerFire id) = timerFireOp s id) := by
  intro s id method hget
  have hpend : (timerFireOp s id).1.pending = mapDelete s.pending id := by
    simp only [timerFireOp, hget]
  have houts : (timerFireOp s id).2
      = [Output.comp (EntryKind.rpc method)
          (Completion.rejected id (RejectErr.timeout method CALL_TIMEOUT_MS))] := by
    simp only [timerFireOp, hget]
  refine ⟨hpend, houts, ?_, ?_, by decide, fun cfg f => rfl⟩
  · rw [hpend]
    exact mapGet_delete_self s.pending id
  · intro j hj
    rw [hpend]
    exact mapGet_delete_other s.pending id j hj

/-- A state with two independent pending calls. -/
def twoPendingState : ClientState :=
  { initState with connected := true, handshakeComplete := true, ws := some 0,
                   pending := [("a", EntryKind.rpc "m1"), ("b", EntryKind.rpc "m2")] }

/-- Witness for C8: expiring id "a" rejects only "a" with the timeout
error and leaves sibling "b" pending. -/
theorem call_timeout_removes_only_that_id_witness :
    mapGet twoPendingState.pending "a" = some (EntryKind.rpc "m1") ∧
    (timerFireOp twoPendingState "a").2
      = [Output.comp (EntryKind.rpc "m1")
          (Completion.rejected "a" (RejectErr.timeout "m1" CALL_TIMEOUT_MS))] ∧
    mapGet (timerFireOp twoPendingState "a").1.pending "a" = none ∧
    mapGet (timerFireOp twoPendingState "a").1.pending "b"
      = mapGet twoPendingState.pending "b" :=
  ⟨by decide,
    (call_timeout_removes_only_that_id twoPendingState "a" "m1" (by decide)).2.1,
    (call_timeout_removes_only_that_id twoPendingState "a" "m1" (by decide)).2.2.1,
    (call_timeout_removes_only_that_id twoPendingState "a" "m1" (by decide)).2.2.2.1
      "b" (by decide)⟩

/-- A state with a single pending call under id "a". -/
def onePendingState : ClientState :=
  { initState with connected := true, handshakeComplete := true, ws := some 0,
                   pending := [("a", EntryKind.rpc "m1")] }

/-- C9 counterexample: registering id "a" while "a" is already pending
does not fail the caller — `Map.set` silently replaces the existing
entry: the call succeeds (a registration and a send are performed, no
failure output) and the old entry for "a" is gone. -/
theorem register_existing_id_silently_replaces_cex :
    mapHas onePendingState.pending "a" = true ∧
    (callOp onePendingState "a" "m2").2
      = [Output.registered (EntryKind.rpc "m2") "a", Output.sent (Frame.req "a" "m2")] ∧
    (callOp onePendingState "a" "m2").1.pending = [("a", EntryKind.rpc "m2")] := by
  decide

/-- C9 amended: insertion into the correlation table never fails the
caller; while READY, `call()` always registers and sends, and `Map.set`
on an id that already exists silently replaces that entry (keeping the
table's size), rather than failing.  Collisions are only prevented by
`randomUUID()` freshness. -/
theorem register_never_fails_replaces_existing :
    (∀ (s : ClientState) (id method : String), isConnected s = true →
        (callOp s id method).1.pending = mapSet s.pending id (EntryKind.rpc method) ∧
        (callOp s id method).2
          = Output.registered (EntryKind.rpc method) id
              :: (if sockIsOpen s then [Output.sent (Frame.req id method)] else [])) ∧
    (∀ (m : List (String × EntryKind)) (k : String) (v : EntryKind),
        mapGet (mapSet m k v) k = some v) ∧
    (∀ (m : List (String × EntryKind)) (k : String) (v : EntryKind),
        mapHas m k = true → (mapSet m k v).length = m.length) := by
  refine ⟨?_, mapGet_mapSet_self, mapSet_replace_length⟩
  intro s id method hc
  rw [callOp, if_pos hc]
  exact ⟨rfl, rfl⟩

/-- Witness for the amended C9: a colliding registration succeeds and
replaces. -/
theorem register_never_fails_replaces_existing_witness :
    isConnected onePendingState = true ∧
    (callOp onePendingState "a" "m2").1.pending
      = mapSet onePendingState.pending "a" (EntryKind.rpc "m2") ∧
    mapGet (mapSet onePendingState.pending "a" (EntryKind.rpc "m2")) "a"
      = some (EntryKind.rpc "m2") :=
  ⟨by decide,
    (register_never_fails_replaces_existing.1 onePendingState "a" "m2" (by decide)).1,
    register_never_fails_replaces_existing.2.1 onePendingState.pending "a"
      (EntryKind.rpc "m2")⟩

/-- C10: an empty-string nonce in the challenge behaves exactly like an
absent nonce: the signed payload is identical (version tag "v1", no
nonce field), the whole connect request is identical, and the device
block's nonce field is omitted. -/
theorem empty_nonce_equals_absent_nonce :
    (∀ a : AuthPayloadArgs,
        buildDeviceAuthPayload { a with nonce := some "" }
          = buildDeviceAuthPayload { a with nonce := none }) ∧
    (∀ (cfg : Config) (f : String → String) (now : Nat),
        buildConnectParams cfg f now (some "") = buildConnectParams cfg f now none) ∧
    (∀ (cfg : Config) (f : String → String) (now : Nat),
        Option.bind (buildConnectParams cfg f now (some "")).device DeviceBlock.nonce
          = none) ∧
    (∀ (cfg : Config) (f : String → String) (s : ClientState) (fid : String) (now : Nat),
        sendConnectRequest cfg f s fid (some "") now
          = sendConnectRequest cfg f s fid none now) := by
  have hjs : jsOrUndefined (some "") = jsOrUndefined none := by decide
  have hemp : ("" : String).isEmpty = true := rfl
  have hparams : ∀ (cfg : Config) (f : String → String) (now : Nat),
      buildConnectParams cfg f now (some "") = buildConnectParams cfg f now none := by
    intro cfg f now
    cases h : useDeviceAuth cfg <;>
      simp [buildConnectParams, h, hjs]
  refine ⟨?_, hparams, ?_, ?_⟩
  · intro a
    simp [buildDeviceAuthPayload, strTruthy, hemp]
  · intro cfg f now
    rw [hparams]
    cases h : useDeviceAuth cfg <;>
      simp [buildConnectParams, h, jsOrUndefined, strTruthy]
  · intro cfg f s fid now
    rw [sendConnectRequest, sendConnectRequest, hparams]

end XavierGateway
